import Mathlib

/-!
Verification development for the code_stream repository (a JupyterLab
cell-synchronization extension).  The TypeScript sources under
`src/code_stream/src` and the unnamed parts are shallowly embedded here:
JavaScript strings become `List Char`, the mutable class fields become
explicit record states, asynchronous store calls become an explicit
effect trace, and the key-value store becomes a function from keys to
optional values.  The Redis-backed server endpoints are not part of the
repository snapshot, so their semantics are modelled from the spec where
needed (each such definition is marked in its doc comment).
-/

namespace CodeStream

/-- JavaScript strings are modelled as lists of characters. -/
abbrev JSString := List Char

/-! ## Embedding of `src/code_stream/src/utils/hashGenerator.ts` -/

/-- The character set used by `generateHash`:
`'ABCDEFGHIJKLMNOPQRSTUVWXYZabcdefghijklmnopqrstuvwxyz0123456789'`. -/
def hashCharacters : JSString :=
  "ABCDEFGHIJKLMNOPQRSTUVWXYZabcdefghijklmnopqrstuvwxyz0123456789".data

/-- `generateHash(length)` from `hashGenerator.ts`.  The call
`Math.floor(Math.random() * characters.length)` produces an arbitrary
index in `[0, characters.length)`; we model the random source as a
function `randomIndex : Nat → Nat` reduced modulo the alphabet size, and
`characters.charAt` as `List.getD` (the index is always in range). -/
def generateHash (randomIndex : Nat → Nat) (length : Nat) : JSString :=
  (List.range length).map
    (fun i => hashCharacters.getD (randomIndex i % hashCharacters.length) 'A')

/-- The character class of the regex `/^[a-zA-Z0-9]+$/` in `validateHash`. -/
def isAlnumChar (c : Char) : Bool :=
  ('a' ≤ c && c ≤ 'z') || ('A' ≤ c && c ≤ 'Z') || ('0' ≤ c && c ≤ '9')

/-- `validateHash(hash, length)` from `hashGenerator.ts`:
`if (!hash || hash.length !== length) return false;` followed by the
test of `/^[a-zA-Z0-9]+$/`.  The JavaScript falsiness test `!hash` is
true exactly for the empty string; the regex `+` needs at least one
character, which the emptiness guard already ensures, so on the
remaining strings the regex means "every character is alphanumeric". -/
def validateHash (hash : JSString) (length : Nat := 6) : Bool :=
  if hash.isEmpty || hash.length != length then false
  else hash.all isAlnumChar

/-- Spec-side wording of "exactly 6 characters, each alphanumeric
(A-Z, a-z, 0-9)", written independently of the source embedding. -/
def IsSixAlnum (s : JSString) : Prop :=
  s.length = 6 ∧
    ∀ c ∈ s, ('A' ≤ c ∧ c ≤ 'Z') ∨ ('a' ≤ c ∧ c ≤ 'z') ∨ ('0' ≤ c ∧ c ≤ '9')

lemma isAlnumChar_iff (c : Char) :
    isAlnumChar c = true ↔
      ('A' ≤ c ∧ c ≤ 'Z') ∨ ('a' ≤ c ∧ c ≤ 'z') ∨ ('0' ≤ c ∧ c ≤ '9') := by
  simp only [isAlnumChar, Bool.or_eq_true, Bool.and_eq_true, decide_eq_true_eq]
  tauto

/-- Characterization of `validateHash` at the default expected length. -/
lemma validateHash_iff (s : JSString) :
    validateHash s 6 = true ↔ IsSixAlnum s := by
  unfold validateHash IsSixAlnum
  by_cases hlen : s.length = 6
  · have hne : s ≠ [] := by
      intro h; subst h; simp at hlen
    simp [hlen, List.isEmpty_iff, hne, List.all_eq_true, isAlnumChar_iff]
  · simp [hlen]

/-! ## Embedding of `src/code_stream/src/utils/debounce.ts` -/

/-- One invocation of the closure returned by `debounce(func, wait)`.
The closure's `timeoutId` is modelled as `pending : Option (Nat × α)`
holding the scheduled fire time and the captured arguments.  A pending
timeout scheduled for time `ft` fires (calling `func` with the captured
arguments and resetting `timeoutId` to `null`) once the event loop
reaches `ft`, so if a new call arrives at `t ≥ ft` the timer has already
fired; otherwise `clearTimeout(timeoutId)` cancels it.  In both cases
`setTimeout(..., wait)` then schedules a new timer for `t + wait` with
the new arguments.  The returned list records the `func` invocations
(fire time and arguments) that happened while handling this call. -/
def debounceCall {α : Type} (wait : Nat) (pending : Option (Nat × α)) (t : Nat)
    (a : α) : List (Nat × α) × Option (Nat × α) :=
  match pending with
  | some (ft, pa) =>
      if ft ≤ t then ([(ft, pa)], some (t + wait, a))
      else ([], some (t + wait, a))
  | none => ([], some (t + wait, a))

/-- Run the debounced closure over a timed call sequence starting from
timer state `pending`, then let time pass so that any remaining timer
fires.  Returns the full trace of `func` invocations. -/
def debounceRunFrom {α : Type} (wait : Nat) (pending : Option (Nat × α)) :
    List (Nat × α) → List (Nat × α)
  | [] =>
      match pending with
      | some p => [p]
      | none => []
  | (t, a) :: rest =>
      (debounceCall wait pending t a).1 ++
        debounceRunFrom wait (debounceCall wait pending t a).2 rest

/-- Run the debounced closure from its initial state (`timeoutId = null`). -/
def debounceRun {α : Type} (wait : Nat) (calls : List (Nat × α)) :
    List (Nat × α) :=
  debounceRunFrom wait none calls

/-- The closure returned by `throttle(func, wait)` keeps `lastCall`
(initially `0`) and on a call at time `t` executes `func` exactly when
`t - lastCall ≥ wait`, updating `lastCall := t`; otherwise the call is
discarded.  Times are `Date.now()` values, modelled as integers.
Returns the times at which `func` actually ran. -/
def throttleRunFrom (wait : Int) (lastCall : Int) : List Int → List Int
  | [] => []
  | t :: rest =>
      if wait ≤ t - lastCall then t :: throttleRunFrom wait t rest
      else throttleRunFrom wait lastCall rest

/-- Run the throttled closure from its initial state (`lastCall = 0`). -/
def throttleRun (wait : Int) (calls : List Int) : List Int :=
  throttleRunFrom wait 0 calls

/-- While a timer is pending and every later call arrives strictly
before the currently pending timer fires, the only `func` invocation is
the one scheduled by the last call. -/
lemma debounceRunFrom_pending {α : Type} (wait : Nat) :
    ∀ (calls : List (Nat × α)) (ft : Nat) (pa : α) (hne : calls ≠ [])
      (_ : (calls.head hne).1 < ft)
      (_ : calls.Chain' fun c c' => c'.1 < c.1 + wait),
      debounceRunFrom wait (some (ft, pa)) calls
        = [((calls.getLast hne).1 + wait, (calls.getLast hne).2)]
  | [], _, _, hne, _, _ => absurd rfl hne
  | (t, a) :: rest, ft, pa, _, hhead, hgap => by
      have hnot : ¬ ft ≤ t := by
        simp only [List.head_cons] at hhead; omega
      have hcall : debounceCall wait (some (ft, pa)) t a
          = ([], some (t + wait, a)) := by
        simp [debounceCall, hnot]
      cases rest with
      | nil =>
          rw [debounceRunFrom, hcall]
          simp [debounceRunFrom]
      | cons r rs =>
          have hgap' := List.chain'_cons.mp hgap
          have hrec := debounceRunFrom_pending wait (r :: rs) (t + wait) a
            (by simp) (by simpa using hgap'.1) hgap'.2
          rw [debounceRunFrom, hcall]
          simp [hrec, List.getLast_cons]

/-- Every executed throttled call is one of the triggering calls (in
order): dropped calls are never queued for later execution. -/
lemma throttleRunFrom_sublist (wait : Int) :
    ∀ (calls : List Int) (lastCall : Int),
      (throttleRunFrom wait lastCall calls).Sublist calls
  | [], _ => List.Sublist.refl _
  | t :: rest, lastCall => by
      unfold throttleRunFrom
      split
      · exact (throttleRunFrom_sublist wait rest t).cons₂ t
      · exact (throttleRunFrom_sublist wait rest lastCall).cons t

/-- The first executed call after state `lastCall` is at least `wait`
later than `lastCall`. -/
lemma throttleRunFrom_head (wait : Int) :
    ∀ (calls : List Int) (lastCall u : Int),
      (throttleRunFrom wait lastCall calls).head? = some u →
        wait ≤ u - lastCall
  | [], _, _, h => by simp [throttleRunFrom] at h
  | t :: rest, lastCall, u, h => by
      unfold throttleRunFrom at h
      split at h
      · simp only [List.head?_cons, Option.some.injEq] at h
        omega
      · exact throttleRunFrom_head wait rest lastCall u h

/-- Consecutive executed throttled calls are at least `wait` apart. -/
lemma throttleRunFrom_chain (wait : Int) :
    ∀ (calls : List Int) (lastCall : Int),
      (throttleRunFrom wait lastCall calls).Chain' fun a b => wait ≤ b - a
  | [], _ => List.chain'_nil
  | t :: rest, lastCall => by
      unfold throttleRunFrom
      split
      · refine List.chain'_cons'.mpr ⟨?_, throttleRunFrom_chain wait rest t⟩
        intro u hu
        exact throttleRunFrom_head wait rest t u hu
      · exact throttleRunFrom_chain wait rest lastCall

/-! ## Data model from `src/code_stream/src/models/types.ts` -/

/-- Session hashes (6-character codes). -/
abbrev Hash := JSString

/-- Cell identifiers (opaque strings such as `cell_xxxx...`). -/
abbrev CellId := JSString

/-- `UserRole`: `'teacher' | 'student'` (writer / reader). -/
inductive Role
  | teacher
  | student
deriving DecidableEq, Repr

/-- The `code_stream` cell metadata (`ICellMetadata['code_stream']`),
which has the same shape as `ICellSyncState`. -/
structure CellMeta where
  cell_id : CellId
  sync_enabled : Bool
  last_synced : Option Nat
  sync_hash : Hash
deriving DecidableEq, Repr

/-- A notebook cell as the tracker sees it: its `code_stream` metadata
entry (possibly absent) and its shared-model source text. -/
structure CellState where
  metadata : Option CellMeta
  content : JSString
deriving DecidableEq, Repr

/-- `IGetCellResponse.status`: `'success' | 'error'`. -/
inductive RespStatus
  | success
  | error
deriving DecidableEq, Repr

/-- `IGetCellResponse`: status plus optional cell content. -/
structure GetCellResponse where
  status : RespStatus
  data : Option JSString
deriving DecidableEq, Repr

/-- JavaScript truthiness of `response.data` (a string or absent):
falsy exactly when the field is missing/null or the empty string. -/
def jsTruthyData : Option JSString → Bool
  | none => false
  | some s => ! s.isEmpty

/-! ## Store calls issued by the frontend (`SyncService` methods) -/

/-- One store-mutating call made through `SyncService`.  `pushCell`,
`updateCellEff` and `deleteCellEff` are the `push-cell`, `update` and
`delete` endpoints; `clearAllRedisData` and `cleanupOrphans` are the
session-maintenance endpoints used by `SessionManager`. -/
inductive StoreEffect
  | pushCell (session : Hash) (cellId : CellId) (content : JSString)
  | updateCellEff (session : Hash) (cellId : CellId) (content : JSString)
  | deleteCellEff (session : Hash) (cellId : CellId)
  | clearAllRedisData
  | cleanupOrphans (session : Hash) (validCellIds : List CellId)
deriving DecidableEq, Repr

/-- The shared key-value store, keyed by `(session, cellId)` per the
key scheme of spec §4.3 and returning the latest content if present. -/
abbrev Store := Hash × CellId → Option JSString

/-- Modelled from the spec: the server-side handlers behind the
`SyncService` endpoints (the Redis backend is not part of this
snapshot).  Per §4.3, `push`/`update` insert-or-replace the record and
`delete` removes it idempotently; per the `createSession` /
`refreshSessionCode` sources, clear-all deletes every key; per §4.6,
orphan cleanup deletes exactly the records of the given session whose
cell id is absent from the live list. -/
def applyEffect (store : Store) : StoreEffect → Store
  | .pushCell s c v => fun k => if k = (s, c) then some v else store k
  | .updateCellEff s c v => fun k => if k = (s, c) then some v else store k
  | .deleteCellEff s c => fun k => if k = (s, c) then none else store k
  | .clearAllRedisData => fun _ => none
  | .cleanupOrphans s valid =>
      fun k => if k.1 = s ∧ k.2 ∉ valid then none else store k

/-! ## Embedding of `SessionManager` (src/unnamed/part_001, first file) -/

/-- The mutable state of `SessionManager` relevant to the claims:
the active role, the active session hash, and the `_cellStates` map. -/
structure SMState where
  role : Role
  sessionHash : Option Hash
  cellStates : CellId → Option CellMeta

/-- `SessionManager.joinSession(hash)` (Student only): role check,
`validateHash` format check, then adopt the code locally.  The middle
component is the trace of store calls it makes — none, in every path:
the body only touches local state and notebook metadata. -/
def joinSession (st : SMState) (code : Hash) :
    SMState × List StoreEffect × Bool :=
  if st.role ≠ Role.student then (st, [], false)
  else if ! validateHash code then (st, [], false)
  else ({ st with sessionHash := some code }, [], true)

/-- `SessionManager.createSession()` (Teacher only).  The clear-all call
is awaited inside a try/catch whose failure branch only logs and
continues ("Continue anyway - this is not fatal"), so both outcomes of
`clearResult` proceed identically: generate a fresh hash, activate it,
return it. -/
def createSession (st : SMState) (clearResult : Except Unit Nat)
    (randomIndex : Nat → Nat) : SMState × List StoreEffect × Hash :=
  if st.role ≠ Role.teacher then (st, [], [])
  else
    match clearResult with
    | .ok _ =>
        ({ st with sessionHash := some (generateHash randomIndex 6) },
         [.clearAllRedisData], generateHash randomIndex 6)
    | .error _ =>
        ({ st with sessionHash := some (generateHash randomIndex 6) },
         [.clearAllRedisData], generateHash randomIndex 6)

/-- `SessionManager.refreshSessionCode()` (Teacher only).  Unlike
`createSession`, a clear-all failure is rethrown (`throw error`), so the
result is fallible. -/
def refreshSessionCode (st : SMState) (clearResult : Except Unit Nat)
    (randomIndex : Nat → Nat) :
    Except Unit (SMState × List StoreEffect × Hash) :=
  if st.role ≠ Role.teacher then .ok (st, [], [])
  else
    match clearResult with
    | .error e => .error e
    | .ok _ =>
        .ok ({ st with sessionHash := some (generateHash randomIndex 6) },
             [.clearAllRedisData], generateHash randomIndex 6)

/-- `SessionManager.cleanupOrphanCells(validCellIds)` (Teacher only):
after the role and active-session guards it issues the cleanup call for
the current session. -/
def cleanupOrphanCellsClient (st : SMState) (validCellIds : List CellId) :
    List StoreEffect :=
  if st.role ≠ Role.teacher then []
  else
    match st.sessionHash with
    | none => []
    | some sh => [.cleanupOrphans sh validCellIds]

/-- `SessionManager.toggleSync(cellId, enabled)` (Teacher only): records
the new `ICellSyncState` in the `_cellStates` map. -/
def toggleSync (st : SMState) (cellId : CellId) (enabled : Bool) (now : Nat) :
    SMState :=
  if st.role ≠ Role.teacher then st
  else
    match st.sessionHash with
    | none => st
    | some sh =>
        { st with cellStates := fun c =>
            if c = cellId then some (CellMeta.mk cellId enabled (some now) sh)
            else st.cellStates c }

/-! ## Embedding of `CellTracker` (src/code_stream/src/services) -/

/-- `CellTracker.getCellId(cell)`: returns the metadata cell id when it
is present and truthy (non-empty); otherwise generates a fresh id
(modelled by the `fresh` parameter) and initializes the cell's
`code_stream` metadata with sync disabled. -/
def getCellId (sessionHash : Option Hash) (fresh : CellId) (cell : CellState) :
    CellId × CellState :=
  match cell.metadata with
  | some m =>
      if m.cell_id ≠ [] then (m.cell_id, cell)
      else
        let fm := some (CellMeta.mk fresh false none (sessionHash.getD []))
        (fresh, { cell with metadata := fm })
  | none =>
      let fm := some (CellMeta.mk fresh false none (sessionHash.getD []))
      (fresh, { cell with metadata := fm })

/-- `CellTracker.syncCellToBackend(cell)` (Teacher): after the role,
session, cell-id, metadata and sync-enabled guards, pushes the cell's
current content and stamps `last_synced`.  Returns the updated cell and
the trace of store calls. -/
def syncCellToBackend (role : Role) (sessionHash : Option Hash)
    (fresh : CellId) (now : Nat) (cell : CellState) :
    CellState × List StoreEffect :=
  if role ≠ Role.teacher then (cell, [])
  else
    match sessionHash with
    | none => (cell, [])
    | some sh =>
        match getCellId sessionHash fresh cell with
        | (cellId, cell₁) =>
          if cellId = [] then (cell₁, [])
          else
            match cell₁.metadata with
            | none => (cell₁, [])
            | some m =>
                if ! m.sync_enabled then (cell₁, [])
                else
                  ({ cell₁ with
                      metadata := some { m with last_synced := some now } },
                   [.pushCell sh cellId cell₁.content])

/-- `CellTracker.updateCell(cell)` (Teacher): like `syncCellToBackend`
but through the `update` endpoint and without the explicit empty-id
guard. -/
def updateCell (role : Role) (sessionHash : Option Hash) (fresh : CellId)
    (now : Nat) (cell : CellState) : CellState × List StoreEffect :=
  if role ≠ Role.teacher then (cell, [])
  else
    match sessionHash with
    | none => (cell, [])
    | some sh =>
        match getCellId sessionHash fresh cell with
        | (cellId, cell₁) =>
          match cell₁.metadata with
          | none => (cell₁, [])
          | some m =>
              if ! m.sync_enabled then (cell₁, [])
              else
                ({ cell₁ with
                    metadata := some { m with last_synced := some now } },
                 [.updateCellEff sh cellId cell₁.content])

/-- `CellTracker.deleteCellFromBackend(cell)` (Teacher): after the role
and session guards, issues the delete for the cell's id. -/
def deleteCellFromBackend (role : Role) (sessionHash : Option Hash)
    (fresh : CellId) (cell : CellState) : CellState × List StoreEffect :=
  if role ≠ Role.teacher then (cell, [])
  else
    match sessionHash with
    | none => (cell, [])
    | some sh =>
        match getCellId sessionHash fresh cell with
        | (cellId, cell₁) => (cell₁, [.deleteCellEff sh cellId])

/-- `CellTracker.requestCellSync(cell)` (Student): fetches the cell from
the backend (`response` models the awaited `getCell` result, with
`.error` standing for a thrown fetch error caught by the surrounding
try/catch).  Content is overwritten only when
`response.status === 'success' && response.data` holds. -/
def requestCellSync (role : Role) (sessionHash : Option Hash) (fresh : CellId)
    (now : Nat) (response : Except Unit GetCellResponse) (cell : CellState) :
    CellState × Bool :=
  if role ≠ Role.student then (cell, false)
  else
    match sessionHash with
    | none => (cell, false)
    | some _ =>
        match getCellId sessionHash fresh cell with
        | (_, cell₁) =>
          match cell₁.metadata with
          | none => (cell₁, false)
          | some m =>
              match response with
              | .error _ => (cell₁, false)
              | .ok r =>
                  if r.status = RespStatus.success ∧ jsTruthyData r.data then
                    ({ cell₁ with
                        content := r.data.getD [],
                        metadata := some { m with last_synced := some now } },
                     true)
                  else (cell₁, false)

/-- The store write `resyncAllCells` issues for one notebook cell, when
the cell's metadata exists with `sync_enabled` and a truthy cell id. -/
def pushEffectOf (sh : Hash) (c : CellState) : Option StoreEffect :=
  match c.metadata with
  | some m =>
      if m.sync_enabled ∧ m.cell_id ≠ [] then
        some (.pushCell sh m.cell_id c.content)
      else none
  | none => none

/-- `CellTracker.resyncAllCells()` (Teacher): pushes every notebook cell
whose metadata has `sync_enabled` and a truthy cell id under the current
session, returning the push trace and the synced count. -/
def resyncAllCells (role : Role) (sessionHash : Option Hash)
    (cells : List CellState) : List StoreEffect × Nat :=
  if role ≠ Role.teacher then ([], 0)
  else
    match sessionHash with
    | none => ([], 0)
    | some sh =>
        (cells.filterMap (pushEffectOf sh),
         (cells.filterMap (pushEffectOf sh)).length)

/-- `CellTracker.getAllActiveCellIds()`: the ids recorded in the
notebook cells' metadata (those with a truthy cell id). -/
def getAllActiveCellIds (cells : List CellState) : List CellId :=
  cells.filterMap fun c =>
    match c.metadata with
    | some m => if m.cell_id ≠ [] then some m.cell_id else none
    | none => none

/-! ## Embedding of the UI flows (`TeacherControls`, `SessionPanel`) -/

/-- `TeacherControls._onToggleClick()` for a given active cell: read the
cell id and metadata, flip the sync flag, record it in the session
manager and the cell metadata, then either push the cell and keep the
record, or delete the record from the backend.  The store is advanced by
the issued calls (all store calls assumed to succeed). -/
def onToggleClick (st : SMState) (fresh : CellId) (now : Nat)
    (cell : CellState) (store : Store) :
    SMState × CellState × Store × List StoreEffect :=
  match getCellId st.sessionHash fresh cell with
  | (cellId, cell₁) =>
    match cell₁.metadata with
    | none => (st, cell₁, store, [])
    | some m =>
        let newSyncState := ! m.sync_enabled
        let st₁ := toggleSync st cellId newSyncState now
        let cell₂ :=
          { cell₁ with metadata := some { m with sync_enabled := newSyncState } }
        if newSyncState then
          match syncCellToBackend st₁.role st₁.sessionHash fresh now cell₂ with
          | (cell₃, effs) => (st₁, cell₃, effs.foldl applyEffect store, effs)
        else
          match deleteCellFromBackend st₁.role st₁.sessionHash fresh cell₂ with
          | (cell₃, effs) => (st₁, cell₃, effs.foldl applyEffect store, effs)

/-- Iterate `_onToggleClick` on the same cell `n` times, threading the
session-manager state, the cell and the store, and reporting the store
calls of the most recent toggle. -/
def toggleIter (st : SMState) (fresh : CellId) (now : Nat) (cell : CellState)
    (store : Store) : Nat → SMState × CellState × Store × List StoreEffect
  | 0 => (st, cell, store, [])
  | n + 1 =>
      match toggleIter st fresh now cell store n with
      | (st₁, cell₁, store₁, _) => onToggleClick st₁ fresh now cell₁ store₁

/-- `SessionPanel._refreshSessionCode()` after user confirmation, on the
success path: refresh the session code (which clears the store), re-sync
all enabled cells, then clean up orphan cells against the live cell ids.
Returns the final session-manager state, the store after all issued
calls, the full call trace, and the new hash. -/
def refreshFlow (st : SMState) (cells : List CellState) (store : Store)
    (clearCount : Nat) (randomIndex : Nat → Nat) :
    SMState × Store × List StoreEffect × Hash :=
  match refreshSessionCode st (.ok clearCount) randomIndex with
  | .error _ => (st, store, [], [])
  | .ok (st₁, effsA, newHash) =>
      match resyncAllCells st₁.role st₁.sessionHash cells with
      | (effsB, _) =>
          let validCellIds := getAllActiveCellIds cells
          let effsC := cleanupOrphanCellsClient st₁ validCellIds
          let effs := effsA ++ effsB ++ effsC
          (st₁, effs.foldl applyEffect store, effs, newHash)

/-- Two notebook cells carry distinct cell ids (whenever both have
metadata); notebook cell ids are generated uniquely. -/
def DistinctIds (c c' : CellState) : Prop :=
  ∀ mc mc', c.metadata = some mc → c'.metadata = some mc' →
    mc.cell_id ≠ mc'.cell_id

/-- The store keys a single effect can modify. -/
def touchesKey : StoreEffect → Hash × CellId → Prop
  | .pushCell s c _, k => k = (s, c)
  | .updateCellEff s c _, k => k = (s, c)
  | .deleteCellEff s c, k => k = (s, c)
  | .clearAllRedisData, _ => True
  | .cleanupOrphans s valid, k => k.1 = s ∧ k.2 ∉ valid

end CodeStream

/-! ## Claim theorems (interleaved with further definitions below) -/

namespace CodeStream

/-- C2: For every string `s`, `validateHash s` (at its default expected
length 6) returns `true` if and only if `s` has length exactly 6 and
every character of `s` is alphanumeric (A-Z, a-z, 0-9); in particular it
returns `false` for every string of wrong length and for every string
containing a non-alphanumeric character. -/
theorem validateHash_accepts_iff_six_alnum (s : JSString) :
    validateHash s 6 = true ↔ IsSixAlnum s :=
  validateHash_iff s

/-- C1: For every sequence of at least one timed edit notification in
which each notification arrives less than `wait` milliseconds after the
previous one, the closure returned by `debounce(func, wait)` invokes
`func` exactly once, at `wait` milliseconds after the last notification,
with the arguments (the content) of the last notification; every earlier
pending timer is cancelled by the notification that follows it, so no
other invocation occurs. -/
theorem debounce_burst_single_invocation {α : Type} (wait : Nat)
    (calls : List (Nat × α)) (hne : calls ≠ [])
    (hgap : calls.Chain' fun c c' => c.1 ≤ c'.1 ∧ c'.1 < c.1 + wait) :
    debounceRun wait calls
      = [((calls.getLast hne).1 + wait, (calls.getLast hne).2)] := by
  match calls, hne with
  | (t, a) :: rest, _ =>
      have hcall : debounceCall (α := α) wait none t a
          = ([], some (t + wait, a)) := rfl
      cases rest with
      | nil =>
          rw [debounceRun, debounceRunFrom, hcall]
          simp [debounceRunFrom]
      | cons r rs =>
          have hgap' := List.chain'_cons.mp hgap
          have hrec := debounceRunFrom_pending wait (r :: rs) (t + wait) a
            (by simp) (by simpa using hgap'.1.2)
            (hgap'.2.imp fun c c' h => h.2)
          rw [debounceRun, debounceRunFrom, hcall]
          simp [hrec, List.getLast_cons]

/-- Witness for C1: two edits 1 ms apart with `wait = 2000` produce
exactly one invocation, at 2001 ms, carrying the second edit. -/
theorem debounce_burst_single_invocation_witness :
    debounceRun 2000 [(0, ['a']), (1, ['b'])] = [(2001, ['b'])] := by
  have h := debounce_burst_single_invocation 2000 [(0, ['a']), (1, ['b'])]
    (by simp) (by simp)
  simpa using h

/-! Helper lemmas about `generateHash` and `getCellId`. -/

lemma isAlnumChar_getD_hashCharacters (k : Nat) :
    isAlnumChar (hashCharacters.getD k 'A') = true := by
  by_cases h : k < hashCharacters.length
  · revert h
    have hall : ∀ k < hashCharacters.length,
        isAlnumChar (hashCharacters.getD k 'A') = true := by decide
    exact hall k
  · rw [List.getD_eq_default _ _ (by omega)]
    decide

lemma generateHash_length (r : Nat → Nat) (n : Nat) :
    (generateHash r n).length = n := by
  simp [generateHash]

lemma validateHash_generateHash (r : Nat → Nat) :
    validateHash (generateHash r 6) = true := by
  rw [validateHash_iff]
  refine ⟨generateHash_length r 6, ?_⟩
  intro c hc
  rw [← isAlnumChar_iff]
  obtain ⟨i, _, rfl⟩ := List.mem_map.mp hc
  exact isAlnumChar_getD_hashCharacters _

lemma getCellId_content (sessionHash : Option Hash) (fresh : CellId)
    (cell : CellState) :
    (getCellId sessionHash fresh cell).2.content = cell.content := by
  unfold getCellId
  rcases cell.metadata with _ | m
  · rfl
  · dsimp only
    split <;> rfl

/-- C6: For every string `code`, `joinSession(code)` called by a reader
(student) returns `false` and leaves the active-session state unchanged
when `code` is not exactly 6 alphanumeric characters; when `code` is
exactly 6 alphanumeric characters it adopts `code` as the active session
and returns `true`; in both cases the call issues no store call (its
effect trace is empty — join is purely local). -/
theorem joinSession_spec (st : SMState) (code : Hash)
    (hrole : st.role = Role.student) :
    (¬ IsSixAlnum code → joinSession st code = (st, [], false)) ∧
    (IsSixAlnum code →
      joinSession st code = ({ st with sessionHash := some code }, [], true)) ∧
    (joinSession st code).2.1 = [] := by
  have hr : ¬ st.role ≠ Role.student := by simp [hrole]
  refine ⟨?_, ?_, ?_⟩
  · intro h
    have hv : validateHash code = false :=
      Bool.eq_false_iff.mpr fun ht => h ((validateHash_iff code).mp ht)
    simp [joinSession, hr, hv]
  · intro h
    have hv : validateHash code = true := (validateHash_iff code).mpr h
    simp [joinSession, hr, hv]
  · cases hv : validateHash code <;> simp [joinSession, hr, hv]

/-- Witness for C6: a student joining with the valid code `ABC123`
adopts it and gets `true`. -/
theorem joinSession_spec_witness :
    joinSession ⟨Role.student, none, fun _ => none⟩ "ABC123".data
      = (⟨Role.student, some "ABC123".data, fun _ => none⟩, [], true) := by
  have h := (joinSession_spec ⟨Role.student, none, fun _ => none⟩
    "ABC123".data rfl).2.1 (by constructor <;> decide)
  simpa using h

/-- C7: For every invocation of `createSession` by the writer (teacher)
it returns a 6-character alphanumeric code (one `validateHash` accepts)
and activates it as the session, and it does so identically whether the
preceding clear of existing records succeeded or failed (the failure is
caught and non-fatal); when called by a non-writer role it performs no
session creation (state unchanged, no store call, empty code returned). -/
theorem createSession_spec (st : SMState) (clearResult : Except Unit Nat)
    (r : Nat → Nat) :
    (st.role = Role.teacher →
      createSession st clearResult r
        = ({ st with sessionHash := some (generateHash r 6) },
           [StoreEffect.clearAllRedisData], generateHash r 6) ∧
      validateHash (createSession st clearResult r).2.2 = true) ∧
    (st.role ≠ Role.teacher → createSession st clearResult r = (st, [], [])) := by
  constructor
  · intro h
    have hr : ¬ st.role ≠ Role.teacher := by simp [h]
    constructor
    · cases clearResult <;> simp [createSession, hr]
    · cases clearResult <;> simp [createSession, hr, validateHash_generateHash]
  · intro h
    simp [createSession, h]

/-- Witness for C7: a teacher creating a session while the clear call
fails still gets a code that `validateHash` accepts. -/
theorem createSession_spec_witness :
    validateHash
      (createSession ⟨Role.teacher, none, fun _ => none⟩ (.error ())
        (fun _ => 0)).2.2 = true :=
  ((createSession_spec ⟨Role.teacher, none, fun _ => none⟩ (.error ())
    (fun _ => 0)).1 rfl).2

/-- C9: For every cell and every state in which the active role is not
the writer (teacher), none of `syncCellToBackend`, `updateCell`,
`deleteCellFromBackend` issues any store call: each returns with an
empty effect trace and the cell unchanged, so a reader never writes cell
content back to the store. -/
theorem reader_never_writes (role : Role) (sessionHash : Option Hash)
    (fresh : CellId) (now : Nat) (cell : CellState)
    (hrole : role ≠ Role.teacher) :
    syncCellToBackend role sessionHash fresh now cell = (cell, []) ∧
    updateCell role sessionHash fresh now cell = (cell, []) ∧
    deleteCellFromBackend role sessionHash fresh cell = (cell, []) := by
  refine ⟨?_, ?_, ?_⟩ <;>
    simp [syncCellToBackend, updateCell, deleteCellFromBackend, hrole]

/-- Witness for C9: a student's `syncCellToBackend` issues nothing. -/
theorem reader_never_writes_witness :
    syncCellToBackend Role.student none [] 0 ⟨none, []⟩ = (⟨none, []⟩, []) :=
  (reader_never_writes Role.student none [] 0 ⟨none, []⟩ (by decide)).1

/-- C10: For every student cell, `requestCellSync` leaves the cell's
content unchanged and returns `false` whenever the fetch fails, the
response status is not success, or the response carries no (truthy)
data; and it returns `true` only when the response status is success and
data is present, in which case the cell's content becomes the fetched
data. -/
theorem requestCellSync_spec (role : Role) (sessionHash : Option Hash)
    (fresh : CellId) (now : Nat) (response : Except Unit GetCellResponse)
    (cell : CellState) :
    ((response = .error () ∨
        (∃ r, response = .ok r ∧
          (r.status ≠ RespStatus.success ∨ jsTruthyData r.data = false))) →
      (requestCellSync role sessionHash fresh now response cell).1.content
          = cell.content ∧
      (requestCellSync role sessionHash fresh now response cell).2 = false) ∧
    ((requestCellSync role sessionHash fresh now response cell).2 = true →
      ∃ r, response = .ok r ∧ r.status = RespStatus.success ∧
        jsTruthyData r.data = true ∧
        (requestCellSync role sessionHash fresh now response cell).1.content
          = r.data.getD []) := by
  rcases hg : getCellId sessionHash fresh cell with ⟨cid, cell₁⟩
  have hcont : cell₁.content = cell.content := by
    have h := getCellId_content sessionHash fresh cell
    rw [hg] at h
    exact h
  by_cases hrole : role ≠ Role.student
  · simp [requestCellSync, hrole]
  · rcases sessionHash with _ | sh
    · simp [requestCellSync, hrole]
    · rcases hmeta : cell₁.metadata with _ | m
      · constructor
        · intro _
          refine ⟨?_, ?_⟩ <;> simp [requestCellSync, hrole, hg, hmeta, hcont]
        · simp [requestCellSync, hrole, hg, hmeta]
      · rcases response with e | r
        · constructor
          · intro _
            refine ⟨?_, ?_⟩ <;> simp [requestCellSync, hrole, hg, hmeta, hcont]
          · simp [requestCellSync, hrole, hg, hmeta]
        · by_cases hok : r.status = RespStatus.success ∧ jsTruthyData r.data
          · constructor
            · rintro (h | ⟨r', hr', h⟩)
              · simp at h
              · have hrr : r' = r := by
                  injection hr' with h2
                  exact h2.symm
                subst hrr
                rcases h with h | h
                · exact absurd hok.1 h
                · have h2 := hok.2
                  rw [h] at h2
                  exact absurd h2 (by simp)
            · intro _
              refine ⟨r, rfl, hok.1, hok.2, ?_⟩
              simp [requestCellSync, hrole, hg, hmeta, hok]
          · constructor
            · intro _
              refine ⟨?_, ?_⟩ <;>
                simp [requestCellSync, hrole, hg, hmeta, hok, hcont]
            · simp [requestCellSync, hrole, hg, hmeta, hok]

/-- Witness for C10: a successful response carrying empty (falsy) data
leaves a student cell unchanged and yields `false`. -/
theorem requestCellSync_spec_witness :
    (requestCellSync Role.student (some "ABC123".data) ['c'] 0
        (Except.ok ⟨RespStatus.success, some []⟩)
        ⟨some (CellMeta.mk ['c'] true none []), ['x']⟩).2 = false :=
  ((requestCellSync_spec Role.student (some "ABC123".data) ['c'] 0
      (Except.ok ⟨RespStatus.success, some []⟩)
      ⟨some (CellMeta.mk ['c'] true none []), ['x']⟩).1
    (Or.inr ⟨⟨RespStatus.success, some []⟩, rfl, Or.inr rfl⟩)).2

/-! Helper lemmas for the toggle flow (C5). -/

lemma toggleSync_role (st : SMState) (cellId : CellId) (enabled : Bool)
    (now : Nat) : (toggleSync st cellId enabled now).role = st.role := by
  unfold toggleSync
  by_cases h : st.role ≠ Role.teacher
  · simp [h]
  · rcases hs : st.sessionHash with _ | sh <;> simp [h, hs]

lemma toggleSync_sessionHash (st : SMState) (cellId : CellId) (enabled : Bool)
    (now : Nat) :
    (toggleSync st cellId enabled now).sessionHash = st.sessionHash := by
  unfold toggleSync
  by_cases h : st.role ≠ Role.teacher
  · simp [h]
  · rcases hs : st.sessionHash with _ | sh <;> simp [h, hs]

lemma getCellId_of_meta (sessionHash : Option Hash) (fresh : CellId)
    (cell : CellState) (m : CellMeta) (hmeta : cell.metadata = some m)
    (hid : m.cell_id ≠ []) :
    getCellId sessionHash fresh cell = (m.cell_id, cell) := by
  unfold getCellId
  rw [hmeta]
  simp [hid]

lemma syncCellToBackend_push (sh : Hash) (fresh : CellId) (now : Nat)
    (cell : CellState) (m : CellMeta) (hmeta : cell.metadata = some m)
    (hid : m.cell_id ≠ []) (hen : m.sync_enabled = true) :
    syncCellToBackend Role.teacher (some sh) fresh now cell
      = (CellState.mk
           (some (CellMeta.mk m.cell_id true (some now) m.sync_hash))
           cell.content,
         [StoreEffect.pushCell sh m.cell_id cell.content]) := by
  unfold syncCellToBackend
  rw [getCellId_of_meta _ _ _ _ hmeta hid]
  simp [hmeta, hid, hen]

lemma deleteCellFromBackend_delete (sh : Hash) (fresh : CellId)
    (cell : CellState) (m : CellMeta) (hmeta : cell.metadata = some m)
    (hid : m.cell_id ≠ []) :
    deleteCellFromBackend Role.teacher (some sh) fresh cell
      = (cell, [StoreEffect.deleteCellEff sh m.cell_id]) := by
  unfold deleteCellFromBackend
  rw [getCellId_of_meta _ _ _ _ hmeta hid]
  simp

lemma onToggleClick_enable (st : SMState) (fresh : CellId) (now : Nat)
    (cell : CellState) (store : Store) (sh : Hash) (m : CellMeta)
    (hrole : st.role = Role.teacher) (hsh : st.sessionHash = some sh)
    (hmeta : cell.metadata = some m) (hid : m.cell_id ≠ [])
    (hdis : m.sync_enabled = false) :
    onToggleClick st fresh now cell store
      = (toggleSync st m.cell_id true now,
         CellState.mk
           (some (CellMeta.mk m.cell_id true (some now) m.sync_hash))
           cell.content,
         applyEffect store (StoreEffect.pushCell sh m.cell_id cell.content),
         [StoreEffect.pushCell sh m.cell_id cell.content]) := by
  have hg : getCellId st.sessionHash fresh cell = (m.cell_id, cell) :=
    getCellId_of_meta _ _ _ _ hmeta hid
  unfold onToggleClick
  rw [hg]
  simp only [hmeta, hdis, Bool.not_false, if_true, toggleSync_role,
    toggleSync_sessionHash, hrole, hsh]
  rw [syncCellToBackend_push sh fresh now
      (CellState.mk (some (CellMeta.mk m.cell_id true m.last_synced m.sync_hash))
        cell.content)
      (CellMeta.mk m.cell_id true m.last_synced m.sync_hash) rfl hid rfl]
  simp [applyEffect]

lemma onToggleClick_disable (st : SMState) (fresh : CellId) (now : Nat)
    (cell : CellState) (store : Store) (sh : Hash) (m : CellMeta)
    (hrole : st.role = Role.teacher) (hsh : st.sessionHash = some sh)
    (hmeta : cell.metadata = some m) (hid : m.cell_id ≠ [])
    (hen : m.sync_enabled = true) :
    onToggleClick st fresh now cell store
      = (toggleSync st m.cell_id false now,
         CellState.mk
           (some (CellMeta.mk m.cell_id false m.last_synced m.sync_hash))
           cell.content,
         applyEffect store (StoreEffect.deleteCellEff sh m.cell_id),
         [StoreEffect.deleteCellEff sh m.cell_id]) := by
  have hg : getCellId st.sessionHash fresh cell = (m.cell_id, cell) :=
    getCellId_of_meta _ _ _ _ hmeta hid
  unfold onToggleClick
  rw [hg]
  simp only [hmeta, hen, Bool.not_true, if_false, toggleSync_role,
    toggleSync_sessionHash, hrole, hsh, Bool.false_eq_true, ite_false]
  rw [deleteCellFromBackend_delete sh fresh
      (CellState.mk (some (CellMeta.mk m.cell_id false m.last_synced m.sync_hash))
        cell.content)
      (CellMeta.mk m.cell_id false m.last_synced m.sync_hash) rfl hid]
  simp [applyEffect]

/-- C5: For every cell (with metadata and a truthy id), active writer
session, and store satisfying "record present iff sync enabled", every
sequence of `n` sync-toggle clicks maintains that a record for the cell
exists in the store if and only if the cell currently has `sync_enabled`
set; moreover the next click, when it enables sync, issues exactly one
immediate push of the cell's content, and when it disables sync it
issues exactly one delete of the record (never a write of a
disabled-flagged record). -/
theorem sync_toggle_store_invariant (st : SMState) (fresh : CellId) (now : Nat)
    (cell : CellState) (store : Store) (sh : Hash) (m : CellMeta)
    (hrole : st.role = Role.teacher) (hsh : st.sessionHash = some sh)
    (hmeta : cell.metadata = some m) (hid : m.cell_id ≠ [])
    (hinv : (store (sh, m.cell_id)).isSome = m.sync_enabled) :
    ∀ n, ∃ m',
      (toggleIter st fresh now cell store n).2.1.metadata = some m' ∧
      m'.cell_id = m.cell_id ∧
      (toggleIter st fresh now cell store n).2.1.content = cell.content ∧
      ((toggleIter st fresh now cell store n).2.2.1 (sh, m.cell_id)).isSome
        = m'.sync_enabled ∧
      (toggleIter st fresh now cell store (n + 1)).2.2.2
        = (if m'.sync_enabled then [StoreEffect.deleteCellEff sh m.cell_id]
           else [StoreEffect.pushCell sh m.cell_id cell.content]) := by
  have main : ∀ n, ∃ m',
      (toggleIter st fresh now cell store n).1.role = Role.teacher ∧
      (toggleIter st fresh now cell store n).1.sessionHash = some sh ∧
      (toggleIter st fresh now cell store n).2.1.metadata = some m' ∧
      m'.cell_id = m.cell_id ∧
      (toggleIter st fresh now cell store n).2.1.content = cell.content ∧
      ((toggleIter st fresh now cell store n).2.2.1 (sh, m.cell_id)).isSome
        = m'.sync_enabled := by
    intro n
    induction n with
    | zero => exact ⟨m, hrole, hsh, hmeta, rfl, rfl, hinv⟩
    | succ k ih =>
        obtain ⟨mk', hr, hs, hm, hcid, hcc, hst⟩ := ih
        rcases hiter : toggleIter st fresh now cell store k with
          ⟨stk, cellk, storek, effk⟩
        rw [hiter] at hr hs hm hcc hst
        have hstep : toggleIter st fresh now cell store (k + 1)
            = onToggleClick stk fresh now cellk storek := by
          rw [toggleIter, hiter]
        have hcid' : mk'.cell_id ≠ [] := by rw [hcid]; exact hid
        by_cases hen : mk'.sync_enabled = true
        · rw [hstep, onToggleClick_disable stk fresh now cellk storek sh mk'
            hr hs hm hcid' hen]
          refine ⟨CellMeta.mk mk'.cell_id false mk'.last_synced mk'.sync_hash,
            ?_, ?_, rfl, hcid, hcc, ?_⟩
          · rw [toggleSync_role]; exact hr
          · rw [toggleSync_sessionHash]; exact hs
          · simp [applyEffect, hcid]
        · have hdis : mk'.sync_enabled = false := by
            revert hen; cases mk'.sync_enabled <;> simp
          rw [hstep, onToggleClick_enable stk fresh now cellk storek sh mk'
            hr hs hm hcid' hdis]
          refine ⟨CellMeta.mk mk'.cell_id true (some now) mk'.sync_hash,
            ?_, ?_, rfl, hcid, hcc, ?_⟩
          · rw [toggleSync_role]; exact hr
          · rw [toggleSync_sessionHash]; exact hs
          · simp [applyEffect, hcid]
  intro n
  obtain ⟨m', hr, hs, hm, hcid, hcc, hst⟩ := main n
  refine ⟨m', hm, hcid, hcc, hst, ?_⟩
  rcases hiter : toggleIter st fresh now cell store n with
    ⟨stn, celln, storen, effn⟩
  rw [hiter] at hr hs hm hcc
  have hstep : toggleIter st fresh now cell store (n + 1)
      = onToggleClick stn fresh now celln storen := by
    rw [toggleIter, hiter]
  have hcid' : m'.cell_id ≠ [] := by rw [hcid]; exact hid
  by_cases hen : m'.sync_enabled = true
  · rw [hstep, onToggleClick_disable stn fresh now celln storen sh m'
      hr hs hm hcid' hen]
    simp [hen, hcid]
  · have hdis : m'.sync_enabled = false := by
      revert hen; cases m'.sync_enabled <;> simp
    rw [hstep, onToggleClick_enable stn fresh now celln storen sh m'
      hr hs hm hcid' hdis]
    have hcc' : celln.content = cell.content := hcc
    simp [hdis, hcid, hcc']

/-- Witness for C5: one toggle on a disabled cell under session
`ABC123` over the empty store puts the record into the store. -/
theorem sync_toggle_store_invariant_witness :
    ((toggleIter ⟨Role.teacher, some "ABC123".data, fun _ => none⟩ ['f'] 7
        ⟨some (CellMeta.mk ['c'] false none []), ['x']⟩
        (fun _ => none) 1).2.2.1 ("ABC123".data, ['c'])).isSome = true := by
  obtain ⟨m', hm, hcid, hcc, hst, heff⟩ :=
    sync_toggle_store_invariant
      ⟨Role.teacher, some "ABC123".data, fun _ => none⟩ ['f'] 7
      ⟨some (CellMeta.mk ['c'] false none []), ['x']⟩ (fun _ => none)
      "ABC123".data (CellMeta.mk ['c'] false none [])
      rfl rfl rfl (by decide) rfl 1
  rw [hst]
  have hm2 : some m' = some (CellMeta.mk ['c'] true (some 7) []) := by
    rw [← hm]
    decide
  injection hm2 with hm2
  rw [hm2]

/-! Helper lemmas for the refresh/reconcile flow (C3, C4). -/

lemma distinctIds_symm : Symmetric DistinctIds := by
  intro c c' h mc' mc hm' hm
  exact (h mc mc' hm hm').symm

lemma applyEffect_not_touches (store : Store) (e : StoreEffect)
    (k : Hash × CellId) (h : ¬ touchesKey e k) :
    applyEffect store e k = store k := by
  cases e with
  | pushCell s c v => exact if_neg h
  | updateCellEff s c v => exact if_neg h
  | deleteCellEff s c => exact if_neg h
  | clearAllRedisData => exact absurd trivial h
  | cleanupOrphans s valid => exact if_neg h

lemma foldl_applyEffect_not_touches :
    ∀ (es : List StoreEffect) (store : Store) (k : Hash × CellId),
      (∀ e ∈ es, ¬ touchesKey e k) →
      es.foldl applyEffect store k = store k
  | [], _, _, _ => rfl
  | e :: es, store, k, h => by
      rw [List.foldl_cons,
        foldl_applyEffect_not_touches es _ k
          (fun e' he' => h e' (List.mem_cons_of_mem _ he'))]
      exact applyEffect_not_touches store e k (h e (List.mem_cons_self _ _))

lemma mem_filterMap_pushEffectOf (sh : Hash) (cells : List CellState)
    (e : StoreEffect) (he : e ∈ cells.filterMap (pushEffectOf sh)) :
    ∃ c ∈ cells, ∃ mc, c.metadata = some mc ∧ mc.sync_enabled = true ∧
      mc.cell_id ≠ [] ∧ e = StoreEffect.pushCell sh mc.cell_id c.content := by
  obtain ⟨c, hc, hpe⟩ := List.mem_filterMap.mp he
  refine ⟨c, hc, ?_⟩
  unfold pushEffectOf at hpe
  rcases hmeta : c.metadata with _ | mc
  · rw [hmeta] at hpe
    simp at hpe
  · rw [hmeta] at hpe
    dsimp only at hpe
    split at hpe
    · rename_i hcond
      injection hpe with hpe
      exact ⟨mc, rfl, hcond.1, hcond.2, hpe.symm⟩
    · exact absurd hpe (by simp)

lemma foldl_pushes_of_enabled (sh : Hash) :
    ∀ (cells : List CellState) (store : Store) (c : CellState) (mc : CellMeta),
      c ∈ cells → c.metadata = some mc → mc.sync_enabled = true →
      mc.cell_id ≠ [] → cells.Pairwise DistinctIds →
      (cells.filterMap (pushEffectOf sh)).foldl applyEffect store
          (sh, mc.cell_id) = some c.content
  | [], _, c, _, hc, _, _, _, _ => absurd hc (List.not_mem_nil c)
  | hd :: tl, store, c, mc, hc, hmeta, hen, hid, hpw => by
      have hpw' := List.pairwise_cons.mp hpw
      rcases List.mem_cons.mp hc with rfl | hmem
      · have hpe : pushEffectOf sh c
            = some (StoreEffect.pushCell sh mc.cell_id c.content) := by
          unfold pushEffectOf
          rw [hmeta]
          simp [hen, hid]
        rw [List.filterMap_cons_some hpe, List.foldl_cons,
          foldl_applyEffect_not_touches]
        · exact if_pos rfl
        · intro e he ht
          obtain ⟨c', hc', mc', hm', _, _, rfl⟩ :=
            mem_filterMap_pushEffectOf sh tl e he
          have hkey : mc.cell_id = mc'.cell_id := by
            have := (Prod.mk.injEq _ _ _ _).mp ht
            exact this.2
          exact hpw'.1 c' hc' mc mc' hmeta hm' hkey
      · rcases hpe : pushEffectOf sh hd with _ | e₀
        · rw [List.filterMap_cons_none hpe]
          exact foldl_pushes_of_enabled sh tl store c mc hmem hmeta hen hid
            hpw'.2
        · rw [List.filterMap_cons_some hpe, List.foldl_cons]
          exact foldl_pushes_of_enabled sh tl (applyEffect store e₀) c mc hmem
            hmeta hen hid hpw'.2

lemma foldl_pushes_of_not_pushed (sh : Hash) (cells : List CellState)
    (store : Store) (cid : CellId)
    (hno : ∀ c ∈ cells, ∀ mc, c.metadata = some mc → mc.sync_enabled = true →
      mc.cell_id ≠ [] → mc.cell_id ≠ cid) :
    (cells.filterMap (pushEffectOf sh)).foldl applyEffect store (sh, cid)
      = store (sh, cid) := by
  apply foldl_applyEffect_not_touches
  intro e he ht
  obtain ⟨c, hc, mc, hm, hen, hid, rfl⟩ := mem_filterMap_pushEffectOf sh cells e he
  have hkey : cid = mc.cell_id := ((Prod.mk.injEq _ _ _ _).mp ht).2
  exact hno c hc mc hm hen hid hkey.symm

lemma mem_getAllActiveCellIds (cells : List CellState) (c : CellState)
    (mc : CellMeta) (hc : c ∈ cells) (hm : c.metadata = some mc)
    (hid : mc.cell_id ≠ []) :
    mc.cell_id ∈ getAllActiveCellIds cells := by
  unfold getAllActiveCellIds
  refine List.mem_filterMap.mpr ⟨c, hc, ?_⟩
  rw [hm]
  simp [hid]

lemma refreshFlow_eq (st : SMState) (cells : List CellState) (store : Store)
    (cc : Nat) (r : Nat → Nat) (hrole : st.role = Role.teacher) :
    refreshFlow st cells store cc r
      = ({ st with sessionHash := some (generateHash r 6) },
         (StoreEffect.clearAllRedisData ::
            (cells.filterMap (pushEffectOf (generateHash r 6)) ++
             [StoreEffect.cleanupOrphans (generateHash r 6)
                (getAllActiveCellIds cells)])).foldl applyEffect store,
         StoreEffect.clearAllRedisData ::
           (cells.filterMap (pushEffectOf (generateHash r 6)) ++
            [StoreEffect.cleanupOrphans (generateHash r 6)
               (getAllActiveCellIds cells)]),
         generateHash r 6) := by
  have hr : ¬ st.role ≠ Role.teacher := by simp [hrole]
  unfold refreshFlow refreshSessionCode resyncAllCells cleanupOrphanCellsClient
  simp [hr]

/-- C4: For every set of live cell identifiers `L` and every stored
state: the reconciliation call (`cleanupOrphanCells` with valid ids `L`,
whose server side is modelled from the spec) deletes every record of the
session whose cell id is not in `L` and leaves every record whose cell
id is in `L` unchanged; and in the session-refresh flow the
reconciliation call appears in the trace only after the clear and after
all republish pushes of currently-enabled cells. -/
theorem reconcile_orphans_after_republish (st : SMState)
    (cells : List CellState) (store store₀ : Store) (cc : Nat)
    (r : Nat → Nat) (L : List CellId) (sh : Hash)
    (hrole : st.role = Role.teacher) :
    (∀ cid, cid ∉ L →
        applyEffect store₀ (StoreEffect.cleanupOrphans sh L) (sh, cid)
          = none) ∧
    (∀ cid, cid ∈ L →
        applyEffect store₀ (StoreEffect.cleanupOrphans sh L) (sh, cid)
          = store₀ (sh, cid)) ∧
    (∃ pushes,
        (refreshFlow st cells store cc r).2.2.1
          = StoreEffect.clearAllRedisData :: pushes
              ++ [StoreEffect.cleanupOrphans (generateHash r 6)
                    (getAllActiveCellIds cells)] ∧
        ∀ e ∈ pushes, ∃ cid content,
          e = StoreEffect.pushCell (generateHash r 6) cid content) := by
  refine ⟨?_, ?_, ?_⟩
  · intro cid h
    exact if_pos ⟨rfl, h⟩
  · intro cid h
    exact if_neg (fun hcon => hcon.2 h)
  · refine ⟨cells.filterMap (pushEffectOf (generateHash r 6)), ?_, ?_⟩
    · rw [refreshFlow_eq st cells store cc r hrole]
      rfl
    · intro e he
      obtain ⟨c, _, mc, _, _, _, rfl⟩ :=
        mem_filterMap_pushEffectOf (generateHash r 6) cells e he
      exact ⟨mc.cell_id, c.content, rfl⟩

/-- Witness for C4: cleaning up with live ids `{"a"}` deletes the stale
record of cell `c` from a store holding `z` everywhere. -/
theorem reconcile_orphans_after_republish_witness :
    applyEffect (fun _ => some ['z'])
      (StoreEffect.cleanupOrphans "ABC123".data [['a']])
      ("ABC123".data, ['c']) = none :=
  (reconcile_orphans_after_republish
    ⟨Role.teacher, some "ABC123".data, fun _ => none⟩ [] (fun _ => none)
    (fun _ => some ['z']) 0 (fun _ => 0) [['a']] "ABC123".data rfl).1
    ['c'] (by decide)

/-- C3 counterexample: `generateHash` is fed by the runtime's random
source and can return the session's previous code again.  With a random
source that always draws index 0, the state whose session code is
already `generateHash (fun _ => 0) 6` (= "AAAAAA") refreshes to the very
same code, and fetching the enabled cell `c` under the old session code
after the flow yields its content — not absent — contradicting the
claim's "new ... code different ... than before" and "a subsequent get
of any cell under the old session code returns absent". -/
theorem refresh_code_can_collide :
    (refreshFlow
          ⟨Role.teacher, some (generateHash (fun _ => 0) 6), fun _ => none⟩
          [⟨some (CellMeta.mk ['c'] true none []), ['p']⟩]
          (fun _ => none) 0 (fun _ => 0)).2.2.2
        = generateHash (fun _ => 0) 6 ∧
    (refreshFlow
          ⟨Role.teacher, some (generateHash (fun _ => 0) 6), fun _ => none⟩
          [⟨some (CellMeta.mk ['c'] true none []), ['p']⟩]
          (fun _ => none) 0 (fun _ => 0)).2.1
        (generateHash (fun _ => 0) 6, ['c']) = some ['p'] := by
  constructor <;> decide

/-- C3 (amended): For every session refresh by the writer,
`refreshSessionCode` returns a 6-character alphanumeric code that
becomes the active session (the code is randomly generated and hence not
guaranteed to differ from the previous one); after the refresh flow
completes, each notebook cell with metadata and a truthy id is stored
under the new code exactly when its `sync_enabled` flag is true (enabled
cells are republished with their content, disabled cells are not
republished) — these hold for every refresh, collisions included; and
provided the new code differs from the old session code, a subsequent
get of any cell under the old session code returns absent. -/
theorem refresh_flow_spec (st : SMState) (cells : List CellState)
    (store : Store) (cc : Nat) (r : Nat → Nat) (oldHash : Hash)
    (hrole : st.role = Role.teacher) (_hsh : st.sessionHash = some oldHash)
    (hpw : cells.Pairwise DistinctIds) :
    validateHash (refreshFlow st cells store cc r).2.2.2 = true ∧
    (refreshFlow st cells store cc r).1.sessionHash
      = some (generateHash r 6) ∧
    (refreshFlow st cells store cc r).2.2.2 = generateHash r 6 ∧
    (∀ c ∈ cells, ∀ mc, c.metadata = some mc → mc.cell_id ≠ [] →
      (mc.sync_enabled = true →
        (refreshFlow st cells store cc r).2.1 (generateHash r 6, mc.cell_id)
          = some c.content) ∧
      (mc.sync_enabled = false →
        (refreshFlow st cells store cc r).2.1 (generateHash r 6, mc.cell_id)
          = none)) ∧
    (generateHash r 6 ≠ oldHash →
      ∀ cid, (refreshFlow st cells store cc r).2.1 (oldHash, cid) = none) := by
  rw [refreshFlow_eq st cells store cc r hrole]
  dsimp only
  refine ⟨validateHash_generateHash r, rfl, rfl, ?_, ?_⟩
  · intro c hc mc hmeta hid
    constructor
    · intro hen
      rw [List.foldl_cons, List.foldl_append]
      have hpushes := foldl_pushes_of_enabled (generateHash r 6) cells
        (applyEffect store StoreEffect.clearAllRedisData) c mc hc hmeta hen
        hid hpw
      rw [List.foldl_cons, List.foldl_nil, applyEffect_not_touches _ _ _ ?hmem]
      case hmem =>
        intro ht
        exact ht.2 (mem_getAllActiveCellIds cells c mc hc hmeta hid)
      exact hpushes
    · intro hdis
      rw [List.foldl_cons, List.foldl_append, List.foldl_cons, List.foldl_nil]
      have hnone : (cells.filterMap (pushEffectOf (generateHash r 6))).foldl
          applyEffect (applyEffect store StoreEffect.clearAllRedisData)
          (generateHash r 6, mc.cell_id) = none := by
        rw [foldl_pushes_of_not_pushed]
        · rfl
        · intro c' hc' mc' hm' hen' hid'
          by_cases hcc : c' = c
          · subst hcc
            rw [hmeta] at hm'
            injection hm' with hm'
            subst hm'
            rw [hen'] at hdis
            exact absurd hdis (by simp)
          · exact List.Pairwise.forall distinctIds_symm hpw hc' hc hcc
              mc' mc hm' hmeta
      dsimp only [applyEffect]
      split
      · rfl
      · exact hnone
  · intro hneq cid
    rw [List.foldl_cons, List.foldl_append, List.foldl_cons, List.foldl_nil]
    have hne₂ : oldHash ≠ generateHash r 6 := hneq.symm
    have hnone : (cells.filterMap (pushEffectOf (generateHash r 6))).foldl
        applyEffect (applyEffect store StoreEffect.clearAllRedisData)
        (oldHash, cid) = none := by
      rw [foldl_applyEffect_not_touches]
      · rfl
      · intro e he ht
        obtain ⟨c', _, mc', _, _, _, rfl⟩ :=
          mem_filterMap_pushEffectOf (generateHash r 6) cells e he
        exact hne₂ ((Prod.mk.injEq _ _ _ _).mp ht).1
    dsimp only [applyEffect]
    split
    · rfl
    · exact hnone

/-- Witness for C3 (amended): a teacher on session `ABC123` with one
enabled cell refreshes (random source drawing index 0, so the new code
is "AAAAAA" ≠ "ABC123") and the returned code passes `validateHash`. -/
theorem refresh_flow_spec_witness :
    validateHash
      (refreshFlow ⟨Role.teacher, some "ABC123".data, fun _ => none⟩
          [⟨some (CellMeta.mk ['c'] true none []), ['p']⟩]
          (fun _ => none) 0 (fun _ => 0)).2.2.2 = true :=
  (refresh_flow_spec ⟨Role.teacher, some "ABC123".data, fun _ => none⟩
    [⟨some (CellMeta.mk ['c'] true none []), ['p']⟩] (fun _ => none) 0
    (fun _ => 0) "ABC123".data rfl rfl (by simp)).1

/-- C8: For every sequence of manual request-sync trigger times, the
closure returned by `throttle(func, wait)` (used with `wait = 1000` by
`UpdateIcon`) executes `func` only at trigger times, in order and
without queueing dropped triggers, and any two consecutive executed
calls are at least `wait` apart — so at most one underlying call is
issued per window, and a trigger strictly within the window since the
last executed call is never executed. -/
theorem throttle_at_most_one_call_per_window (wait : Int) (calls : List Int) :
    (throttleRun wait calls).Sublist calls ∧
    (throttleRun wait calls).Chain' fun a b => wait ≤ b - a :=
  ⟨throttleRunFrom_sublist wait calls 0, throttleRunFrom_chain wait calls 0⟩

end CodeStream
